import Mathlib

/-!
A shallow embedding of the express-songs backend (src/unnamed/part_001, first
document, together with src/Auth.js and src/sequelize.js) and proofs about the
claims of its specification.

Embedding conventions:
* The relational store is a `State` of in-memory row lists; sequelize
  `findOne`/`findAll`/`create`/`destroy`/instance `save` become `List.find?`,
  `List.filter`, list append with a fresh-id counter, id-based removal and
  id-based in-place rewriting.  Generated UUIDs are modelled by Nat counters
  (`nextSongId`, `nextTabId`, `nextVideoId`), starting at 1.
* JavaScript truthiness on request fields: a missing string field and the
  empty string are both falsy, so both are modelled as `""`.  A missing or
  falsy `videos` field is `VideosField.absent`; a truthy non-array value is
  `VideosField.nonArray`.  A video entry id is `Option Nat`; `filter(Boolean)`
  and `!v.id` are modelled by `idTruthy` (absent or 0 is falsy).
* The handlers in the source read `.id`, `.text`, `.url`, `.video_type` off
  Promise objects (`tabPromise.id`, `videoPromises.map(v => v.id)`,
  `[...updatePromises, ...createPromises].map(v => v.id)`).  A property read
  on a Promise yields `undefined`, and `res.json` drops `undefined` fields;
  this is modelled by `none` fields in the echo structures.
* Timestamps (`new Date().toISOString()`) are not modelled; a response
  constructor stands for the literal status code and JSON body of the source
  with the timestamp field elided.
* Effects are sequentialized in program-issue order: video deletes, then the
  in-place updates, then the creates, all before the response is composed.
-/

namespace SongApp

/-! ## Request bodies -/

/-- One entry of the `videos` list of a POST/PUT body:
`{id?, url, video_type}`.  A missing `url`/`video_type` is the falsy `""`. -/
structure VideoEntry where
  id : Option Nat
  url : String
  video_type : String
deriving Repr, DecidableEq

/-- The raw `videos` field of a request body.  `absent` covers a missing or
otherwise falsy value; `nonArray` a truthy value failing `Array.isArray`. -/
inductive VideosField where
  | absent
  | nonArray
  | arr (l : List VideoEntry)
deriving Repr, DecidableEq

/-- POST/PUT `/api/songs` request body. -/
structure Body where
  title : String
  artist : String
  tab_text : String
  videos : VideosField
deriving Repr, DecidableEq

/-! ## Stored rows (sequelize models Song, Tab, Video, User) -/

structure Song where
  id : Nat
  title : String
  artist : String
  user_id : Nat
deriving Repr, DecidableEq

structure Tab where
  id : Nat
  text : String
  song_id : Nat
deriving Repr, DecidableEq

structure Video where
  id : Nat
  url : String
  video_type : String
  song_id : Nat
deriving Repr, DecidableEq

structure User where
  id : Nat
  google_login_id : String
deriving Repr, DecidableEq

/-- The relational store plus fresh-id counters. -/
structure State where
  users : List User
  songs : List Song
  tabs : List Tab
  videos : List Video
  nextSongId : Nat
  nextTabId : Nat
  nextVideoId : Nat
deriving Repr, DecidableEq

/-- `findAll({ where: { song_id: songId } })` on the videos table. -/
def forSong (vs : List Video) (sid : Nat) : List Video :=
  vs.filter (fun v => v.song_id == sid)

/-- The video rows of a song in a state. -/
def videosOf (s : State) (sid : Nat) : List Video :=
  forSong s.videos sid

/-! ## Validation (identical blocks in POST /api/songs and PUT /api/songs/:songId) -/

/-- JS truthiness of a video entry id: `undefined` and `0` are falsy. -/
def idTruthy : Option Nat → Bool
  | some n => n != 0
  | none => false

/-- `(videos || [])`: the list the handlers iterate after validation.
(`nonArray` is unreachable past validation; it is sent to `[]`.) -/
def videosList : VideosField → List VideoEntry
  | .arr l => l
  | _ => []

/-- The four request-validation checks of the source handlers, in source
order, returning the 400 message of the first failing check. -/
def validateBody (b : Body) : Option String :=
  if b.title = "" ∨ b.artist = "" ∨ b.tab_text = "" then
    some "title, artist, and tab_text are required"
  else
    match b.videos with
    | .absent => none
    | .nonArray => some "videos must be an array"
    | .arr l =>
      if l.length > 5 then some "Maximum of 5 videos allowed"
      else if l.any (fun v => v.url == "" || v.video_type == "") then
        some "Each video must have a url and video_type"
      else none

/-- The enumerated validation error messages. -/
def validationMessages : List String :=
  ["title, artist, and tab_text are required",
   "videos must be an array",
   "Maximum of 5 videos allowed",
   "Each video must have a url and video_type"]

/-! ## Response shapes -/

/-- `{id, title, artist}` echoed from the song instance. -/
structure SongResp where
  id : Nat
  title : String
  artist : String
deriving Repr, DecidableEq

/-- The tab part of the aggregate response.  The source reads
`tabPromise.id` / `tabPromise.text` (properties of a Promise), which are
`undefined`, hence `Option` fields that are `none` in the code's output. -/
structure TabEcho where
  id : Option Nat
  text : Option String
deriving Repr, DecidableEq

/-- One element of the `videos` part of the aggregate response; the source
maps over Promise objects, so every field is `undefined` (`none`). -/
structure VideoEcho where
  id : Option Nat
  video_type : Option String
  url : Option String
deriving Repr, DecidableEq

structure AggregateResp where
  song : SongResp
  tab : TabEcho
  videos : List VideoEcho
deriving Repr, DecidableEq

inductive CreateResult where
  /-- 400 `{status:"error", message, timestamp}`. -/
  | badRequest (msg : String)
  /-- 201 `{song, tab, videos}`. -/
  | created (resp : AggregateResp)
deriving Repr, DecidableEq

inductive UpdateResult where
  /-- 400 `{status:"error", message, timestamp}`. -/
  | badRequest (msg : String)
  /-- 404 `{status:"error", message:"Song not found", timestamp}`. -/
  | songNotFound
  /-- The `Promise.reject(new Error('Tab not found'))` path: the rejection is
  not routed to the outer catch, so no HTTP response is ever sent. -/
  | noResponse
  /-- 200 `{song, tab, videos}`. -/
  | ok (resp : AggregateResp)
deriving Repr, DecidableEq

/-! ## POST /api/songs -/

/-- Sequential `Video.create` calls: one fresh-id row per entry, in order,
each referencing `sid`. -/
def createRows (sid : Nat) : Nat → List VideoEntry → List Video
  | _, [] => []
  | n, e :: rest => ⟨n, e.url, e.video_type, sid⟩ :: createRows sid (n + 1) rest

/-- The POST /api/songs handler (first document of src/unnamed/part_001,
lines 186-270), after `requireAuth` supplied `u := req.token.user_id`. -/
def createSong (s : State) (u : Nat) (b : Body) : State × CreateResult :=
  match validateBody b with
  | some msg => (s, .badRequest msg)
  | none =>
    let song : Song := ⟨s.nextSongId, b.title, b.artist, u⟩
    let vids := videosList b.videos
    let created := createRows song.id s.nextVideoId vids
    ({ s with
        songs := s.songs ++ [song]
        tabs := s.tabs ++ [⟨s.nextTabId, b.tab_text, song.id⟩]
        videos := s.videos ++ created
        nextSongId := s.nextSongId + 1
        nextTabId := s.nextTabId + 1
        nextVideoId := s.nextVideoId + vids.length },
     -- the echo reads `tabPromise.id`, `tabPromise.text` and maps over
     -- `videoPromises`: every such property is undefined
     .created ⟨⟨song.id, b.title, b.artist⟩, ⟨none, none⟩,
               List.replicate vids.length ⟨none, none, none⟩⟩)

/-! ## PUT /api/songs/:songId -/

/-- `(videos || []).map(v => v.id).filter(Boolean)`. -/
def newIdsOf (l : List VideoEntry) : List Nat :=
  (l.map VideoEntry.id).filterMap (fun o => if idTruthy o then o else none)

/-- `videos.find(v => v.id === video.id)` followed by assigning `url` and
`video_type` and saving; identity when no entry matches. -/
def updateFromIncoming (l : List VideoEntry) (v : Video) : Video :=
  match l.find? (fun e => e.id == some v.id) with
  | some e => { v with url := e.url, video_type := e.video_type }
  | none => v

/-- The sequential `video.save()` calls of the update branch: each save is an
id-targeted rewrite of the store. -/
def applySaves (l : List VideoEntry) (toUpdate : List Video)
    (store : List Video) : List Video :=
  toUpdate.foldl
    (fun st v =>
      match l.find? (fun e => e.id == some v.id) with
      | some e =>
        st.map (fun w =>
          if w.id == v.id then { w with url := e.url, video_type := e.video_type }
          else w)
      | none => st)
    store

/-- `existingVideoIds.filter(id => !newVideoIds.includes(id))`. -/
def toDeleteIds (s : State) (sid : Nat) (l : List VideoEntry) : List Nat :=
  ((forSong s.videos sid).map Video.id).filter
    (fun i => !((newIdsOf l).contains i))

/-- `existingVideos.filter(v => newVideoIds.includes(v.id))`. -/
def toUpdateList (s : State) (sid : Nat) (l : List VideoEntry) : List Video :=
  (forSong s.videos sid).filter (fun v => (newIdsOf l).contains v.id)

/-- `(videos || []).filter(v => !v.id)`. -/
def toCreateList (l : List VideoEntry) : List VideoEntry :=
  l.filter (fun e => !(idTruthy e.id))

/-- The PUT /api/songs/:songId handler (first document of
src/unnamed/part_001, lines 272-392).  Note that the source never calls
`song.save()`, so the title/artist assignment is an in-memory mutation that
reaches the response but not the store; `tab.save()` and the video
reconciliation do reach the store. -/
def updateSong (s : State) (u : Nat) (sid : Nat) (b : Body) :
    State × UpdateResult :=
  match validateBody b with
  | some msg => (s, .badRequest msg)
  | none =>
    match s.songs.find? (fun g => g.id == sid && g.user_id == u) with
    | none => (s, .songNotFound)
    | some song =>
      let incoming := videosList b.videos
      let videosToDelete := toDeleteIds s sid incoming
      let videosToUpdate := toUpdateList s sid incoming
      let videosToCreate := toCreateList incoming
      let store1 := s.videos.filter (fun w => !(videosToDelete.contains w.id))
      let store2 := applySaves incoming videosToUpdate store1
      let finalVideos := store2 ++ createRows sid s.nextVideoId videosToCreate
      let nextVid := s.nextVideoId + videosToCreate.length
      match s.tabs.find? (fun t => t.song_id == sid) with
      | none =>
        -- tab missing: the reconciliation effects were already issued, but
        -- the rejected tabPromise means no response is composed
        ({ s with videos := finalVideos, nextVideoId := nextVid }, .noResponse)
      | some tab =>
        ({ s with
            videos := finalVideos
            nextVideoId := nextVid
            tabs := s.tabs.map (fun t =>
              if t.id == tab.id then { t with text := b.tab_text } else t) },
         .ok ⟨⟨song.id, b.title, b.artist⟩, ⟨none, none⟩,
              List.replicate (videosToUpdate.length + videosToCreate.length)
                ⟨none, none, none⟩⟩)

/-! ## GET /api/songs/:id -/

inductive GetSongResult where
  /-- 404 `{id:"not_found", message:"Song not found", timestamp}`. -/
  | notFound
  /-- 200 `{id, title, artist}`. -/
  | ok (r : SongResp)
deriving Repr, DecidableEq

/-- The GET /api/songs/:id handler (lines 56-86). -/
def getSongById (s : State) (u : Nat) (sid : Nat) : GetSongResult :=
  match s.songs.find? (fun g => g.id == sid && g.user_id == u) with
  | none => .notFound
  | some g => .ok ⟨g.id, g.title, g.artist⟩

/-! ## Session tokens and the request guard (src/Auth.js) -/

/-- The claim set `jwt.sign` signs: `{user_id}` plus an optional `exp`. -/
structure SessionPayload where
  user_id : Nat
  exp : Option Nat
deriving Repr, DecidableEq

/-- Model of a jsonwebtoken token: the payload plus a signature, where a
signature is only producible from the signing key and the exact payload. -/
structure SessionToken where
  payload : SessionPayload
  sig : String × SessionPayload
deriving Repr, DecidableEq

/-- `jwt.sign(payload, key)`. -/
def jwtSign (key : String) (p : SessionPayload) : SessionToken :=
  ⟨p, (key, p)⟩

inductive JwtError where
  | invalidSignature
  | expired
deriving Repr, DecidableEq

/-- Model of the external `jsonwebtoken` library's `verify`: checks the
signature against the key and then the `exp` claim against the clock,
throwing (the `Except.error` cases) on any failure. -/
def jwtVerify (t : SessionToken) (key : String) (now : Nat) :
    Except JwtError SessionPayload :=
  if t.sig ≠ (key, t.payload) then .error .invalidSignature
  else
    match t.payload.exp with
    | some e => if e ≤ now then .error .expired else .ok t.payload
    | none => .ok t.payload

def jwtOk : Except JwtError SessionPayload → Bool
  | .ok _ => true
  | .error _ => false

/-- Auth.js line 7. -/
def privateKey : String := "my_super_secret_key"

/-- An inbound request's auth metadata: the bearer token, if the
`authorization` header carried one. -/
structure AuthReq where
  bearer : Option SessionToken
deriving Repr, DecidableEq

/-- `decodeSessionToken` (Auth.js lines 37-45): `jwt.verify` inside
try/catch, `null` on any throw (missing header token included). -/
def decodeSessionToken (req : AuthReq) (now : Nat) : Option SessionPayload :=
  match req.bearer with
  | none => none
  | some t =>
    match jwtVerify t privateKey now with
    | .ok p => some p
    | .error _ => none

/-- 401 body `{status, message}` (timestamp elided). -/
structure ErrBody where
  status : String
  message : String
deriving Repr, DecidableEq

inductive GuardResult where
  | halt (code : Nat) (body : ErrBody)
  | pass (p : SessionPayload)
deriving Repr, DecidableEq

/-- `requireAuth` (Auth.js lines 47-60). -/
def requireAuth (req : AuthReq) (now : Nat) : GuardResult :=
  match decodeSessionToken req now with
  | none => .halt 401 ⟨"error", "Unauthorized"⟩
  | some p => .pass p

/-! ## POST /api/auth/google (src/Auth.js lines 9-35) -/

/-- The verified subject claims the Google client returns. -/
structure GooglePayload where
  sub : String
  name : String
  email : String
deriving Repr, DecidableEq

inductive AuthOutcome where
  /-- `res.json({name, email, user_id, session_jwt})`. -/
  | respond (name email : String) (user_id : Nat) (session_jwt : SessionToken)
  /-- An uncaught exception in the handler: no response is sent and no row is
  written. -/
  | crash (msg : String)
deriving Repr, DecidableEq

/-- `handleGoogleAuth` after the identity verifier yielded `p`.  On the
user-not-found branch the source evaluates `uuidv4()` although `uuidv4` is
never imported (Auth.js line 27), raising a ReferenceError before
`sequelize.models.user.create` (itself undefined: the model is registered as
`User`, Auth.js line 29) could run, so no user is created and no response is
sent. -/
def handleGoogleAuth (s : State) (p : GooglePayload) : State × AuthOutcome :=
  match s.users.find? (fun u => u.google_login_id == p.sub) with
  | some u =>
    (s, .respond p.name p.email u.id (jwtSign privateKey ⟨u.id, none⟩))
  | none => (s, .crash "ReferenceError: uuidv4 is not defined")

/-! ## Well-formedness and invariants -/

/-- Store well-formedness maintained by the workflow: video ids are unique,
nonzero and below the counter, video song references and song ids are below
the song counter, and the video counter started at 1. -/
def WF (s : State) : Prop :=
  (s.videos.map Video.id).Nodup ∧
  (∀ v ∈ s.videos, v.id < s.nextVideoId) ∧
  (∀ v ∈ s.videos, v.id ≠ 0) ∧
  (∀ v ∈ s.videos, v.song_id < s.nextSongId) ∧
  (∀ g ∈ s.songs, g.id < s.nextSongId) ∧
  1 ≤ s.nextVideoId

instance (s : State) : Decidable (WF s) := by
  unfold WF; infer_instance

/-- The spec's invariant: a Song has at most 5 Videos at all times. -/
def capInv (s : State) : Prop :=
  ∀ g ∈ s.songs, (videosOf s g.id).length ≤ 5

instance (s : State) : Decidable (capInv s) := by
  unfold capInv; infer_instance

/-- Modelled from the spec's words (§4.4 step 5): the "final resulting video
count" reconciliation of the incoming list `l` against song `sid` of state
`s` would leave — existing videos whose id occurs among the incoming ids
survive (updated), entries without an id become creates, the rest of the
existing videos are deleted. -/
def specResultingVideoCount (s : State) (sid : Nat) (l : List VideoEntry) : Nat :=
  ((videosOf s sid).filter (fun v => (newIdsOf l).contains v.id)).length
    + (l.filter (fun e => !(idTruthy e.id))).length

/-! ## Helper lemmas: created rows -/

theorem createRows_length (sid n : Nat) (cs : List VideoEntry) :
    (createRows sid n cs).length = cs.length := by
  induction cs generalizing n with
  | nil => rfl
  | cons e rest ih => simp [createRows, ih]

theorem mem_createRows {sid n : Nat} {cs : List VideoEntry} {w : Video}
    (hw : w ∈ createRows sid n cs) :
    w.song_id = sid ∧ n ≤ w.id ∧ w.id < n + cs.length ∧
      ∃ e ∈ cs, w.url = e.url ∧ w.video_type = e.video_type := by
  induction cs generalizing n with
  | nil => simp [createRows] at hw
  | cons e rest ih =>
    simp only [createRows, List.mem_cons] at hw
    rcases hw with h | h
    · subst h
      refine ⟨rfl, Nat.le_refl _, ?_, e, by simp, rfl, rfl⟩
      simp only [List.length_cons]
      omega
    · obtain ⟨h1, h2, h3, e', he', h4⟩ := ih h
      refine ⟨h1, Nat.le_of_succ_le h2, ?_, e', by simp [he'], h4⟩
      simp only [List.length_cons]
      omega

theorem forSong_createRows_self (sid n : Nat) (cs : List VideoEntry) :
    forSong (createRows sid n cs) sid = createRows sid n cs := by
  refine List.filter_eq_self.mpr (fun w hw => ?_)
  simp [(mem_createRows hw).1]

theorem forSong_createRows_other {sid sid' : Nat} (h : sid' ≠ sid)
    (n : Nat) (cs : List VideoEntry) :
    forSong (createRows sid n cs) sid' = [] := by
  refine List.filter_eq_nil_iff.mpr (fun w hw => ?_)
  simp only [(mem_createRows hw).1, beq_iff_eq]
  exact fun hc => h hc.symm

theorem createRows_ids_nodup (sid n : Nat) (cs : List VideoEntry) :
    ((createRows sid n cs).map Video.id).Nodup := by
  induction cs generalizing n with
  | nil => simp [createRows]
  | cons e rest ih =>
    simp only [createRows, List.map_cons, List.nodup_cons]
    refine ⟨fun hmem => ?_, ih (n + 1)⟩
    obtain ⟨w, hw, hid⟩ := List.mem_map.mp hmem
    have := (mem_createRows hw).2.1
    omega

/-! ## Helper lemmas: the save fold -/

/-- The effect of one `video.save()` on one store row. -/
def saveStep (l : List VideoEntry) (v : Video) (w : Video) : Video :=
  match l.find? (fun e => e.id == some v.id) with
  | some e => if w.id == v.id then { w with url := e.url, video_type := e.video_type } else w
  | none => w

/-- The cumulative pointwise effect of the whole save sequence on one row. -/
def rewriteEntry (l : List VideoEntry) (tu : List Video) (w : Video) : Video :=
  if tu.any (fun v => v.id == w.id) then updateFromIncoming l w else w

theorem updateFromIncoming_id (l : List VideoEntry) (w : Video) :
    (updateFromIncoming l w).id = w.id := by
  unfold updateFromIncoming
  cases l.find? (fun e => e.id == some w.id) <;> rfl

theorem updateFromIncoming_song_id (l : List VideoEntry) (w : Video) :
    (updateFromIncoming l w).song_id = w.song_id := by
  unfold updateFromIncoming
  cases l.find? (fun e => e.id == some w.id) <;> rfl

theorem updateFromIncoming_idem (l : List VideoEntry) (w : Video) :
    updateFromIncoming l (updateFromIncoming l w) = updateFromIncoming l w := by
  unfold updateFromIncoming
  cases hf : l.find? (fun e => e.id == some w.id) with
  | none => simp [hf]
  | some e => simp [hf]

theorem rewriteEntry_id (l : List VideoEntry) (tu : List Video) (w : Video) :
    (rewriteEntry l tu w).id = w.id := by
  unfold rewriteEntry
  split
  · exact updateFromIncoming_id l w
  · rfl

theorem rewriteEntry_song_id (l : List VideoEntry) (tu : List Video) (w : Video) :
    (rewriteEntry l tu w).song_id = w.song_id := by
  unfold rewriteEntry
  split
  · exact updateFromIncoming_song_id l w
  · rfl

theorem saveStep_eq (l : List VideoEntry) (v w : Video) :
    saveStep l v w = if w.id == v.id then updateFromIncoming l w else w := by
  unfold saveStep updateFromIncoming
  by_cases hid : w.id = v.id
  · rw [← hid]
    cases hf : l.find? (fun e => e.id == some w.id) <;> simp [hf]
  · have hb : (w.id == v.id) = false := by simpa using hid
    cases hf : l.find? (fun e => e.id == some v.id) <;> simp [hf, hb]

theorem applySaves_cons (l : List VideoEntry) (v : Video) (tu : List Video)
    (store : List Video) :
    applySaves l (v :: tu) store = applySaves l tu (store.map (saveStep l v)) := by
  unfold applySaves saveStep
  cases hf : l.find? (fun e => e.id == some v.id) with
  | none => simp [hf, List.foldl_cons, List.map_id']
  | some e => simp [hf, List.foldl_cons]

/-- Pointwise form of the save fold. -/
def pointFold (l : List VideoEntry) (tu : List Video) (w : Video) : Video :=
  tu.foldl (fun w v => saveStep l v w) w

theorem applySaves_eq_map_pointFold (l : List VideoEntry) (tu : List Video)
    (store : List Video) :
    applySaves l tu store = store.map (pointFold l tu) := by
  induction tu generalizing store with
  | nil =>
    unfold applySaves pointFold
    simp [List.map_id']
  | cons v rest ih =>
    rw [applySaves_cons, ih, List.map_map]
    rfl

theorem pointFold_eq_rewriteEntry (l : List VideoEntry) (tu : List Video)
    (w : Video) : pointFold l tu w = rewriteEntry l tu w := by
  induction tu generalizing w with
  | nil => simp [pointFold, rewriteEntry]
  | cons v rest ih =>
    have step : pointFold l (v :: rest) w = pointFold l rest (saveStep l v w) := rfl
    rw [step, ih, saveStep_eq]
    by_cases hid : w.id = v.id
    · have hb : (w.id == v.id) = true := by simpa using hid
      rw [hb]
      simp only [if_true]
      unfold rewriteEntry
      have hidid : (updateFromIncoming l w).id = w.id := updateFromIncoming_id l w
      have hany : ((v :: rest).any fun x => x.id == w.id) = true := by
        simp [List.any_cons, ← hid]
      rw [hany]
      simp only [if_true, hidid]
      split
      · exact updateFromIncoming_idem l w
      · rfl
    · have hb : (w.id == v.id) = false := by simpa using hid
      rw [hb]
      simp only [Bool.false_eq_true, if_false]
      unfold rewriteEntry
      have hb2 : (v.id == w.id) = false := by
        rw [beq_eq_false_iff_ne]
        exact fun hxx => hid hxx.symm
      have : ((v :: rest).any fun x => x.id == w.id)
          = (rest.any fun x => x.id == w.id) := by
        simp [List.any_cons, hb2]
      rw [this]

theorem applySaves_eq_map (l : List VideoEntry) (tu : List Video)
    (store : List Video) :
    applySaves l tu store = store.map (rewriteEntry l tu) := by
  rw [applySaves_eq_map_pointFold]
  exact List.map_congr_left (fun w _ => pointFold_eq_rewriteEntry l tu w)

/-! ## Helper lemmas: projections of the store -/

theorem contains_iff {l : List Nat} {a : Nat} : l.contains a = true ↔ a ∈ l :=
  List.elem_iff

theorem contains_false_iff {l : List Nat} {a : Nat} :
    l.contains a = false ↔ a ∉ l := by
  rw [← @contains_iff l a]
  cases l.contains a <;> simp

theorem forSong_append (vs ws : List Video) (sid : Nat) :
    forSong (vs ++ ws) sid = forSong vs sid ++ forSong ws sid :=
  List.filter_append _ _

theorem forSong_filter (vs : List Video) (q : Video → Bool) (sid : Nat) :
    forSong (vs.filter q) sid = (forSong vs sid).filter q := by
  unfold forSong
  rw [List.filter_filter, List.filter_filter]
  exact List.filter_congr (fun w _ => Bool.and_comm _ _)

theorem forSong_map (vs : List Video) (f : Video → Video)
    (hf : ∀ w, (f w).song_id = w.song_id) (sid : Nat) :
    forSong (vs.map f) sid = (forSong vs sid).map f := by
  unfold forSong
  rw [List.filter_map]
  congr 1
  exact List.filter_congr (fun w _ => by simp [Function.comp, hf w])

/-- On the target song's videos, surviving the delete pass is exactly having
an id among the incoming ids. -/
theorem forSong_not_deleted (s : State) (sid : Nat) (l : List VideoEntry) :
    (forSong s.videos sid).filter
        (fun w => !((toDeleteIds s sid l).contains w.id))
      = toUpdateList s sid l := by
  unfold toUpdateList
  refine List.filter_congr (fun w hw => ?_)
  have hmem : w.id ∈ (forSong s.videos sid).map Video.id :=
    List.mem_map.mpr ⟨w, hw, rfl⟩
  unfold toDeleteIds
  cases hc : (newIdsOf l).contains w.id with
  | true =>
    have hnot : w.id ∉ ((forSong s.videos sid).map Video.id).filter
        (fun i => !((newIdsOf l).contains i)) := by
      intro hin
      have := (List.mem_filter.mp hin).2
      rw [hc] at this
      simp at this
    rw [contains_false_iff.mpr hnot]
    rfl
  | false =>
    have hin : w.id ∈ ((forSong s.videos sid).map Video.id).filter
        (fun i => !((newIdsOf l).contains i)) :=
      List.mem_filter.mpr ⟨hmem, by rw [hc]; rfl⟩
    rw [contains_iff.mpr hin]
    rfl

/-- Under id-uniqueness, a row of another song never carries an id of the
target song's rows. -/
theorem not_mem_target_ids {s : State} (hnd : (s.videos.map Video.id).Nodup)
    {w : Video} (hw : w ∈ s.videos) {sid : Nat} (hne : w.song_id ≠ sid) :
    w.id ∉ (forSong s.videos sid).map Video.id := by
  intro hmem
  obtain ⟨v, hv, hvid⟩ := List.mem_map.mp hmem
  have hvmem : v ∈ s.videos := (List.mem_filter.mp hv).1
  have hvsid : v.song_id = sid := by
    have := (List.mem_filter.mp hv).2
    simpa using this
  have : v = w := List.inj_on_of_nodup_map hnd hvmem hw hvid
  exact hne (this ▸ hvsid)

/-! ## Helper lemmas: decomposition of the update handler -/

theorem updateSong_components (s : State) (u sid : Nat) (b : Body)
    (song : Song) (hv : validateBody b = none)
    (hfind : s.songs.find? (fun g => g.id == sid && g.user_id == u)
      = some song) :
    (updateSong s u sid b).1.videos =
        applySaves (videosList b.videos)
          (toUpdateList s sid (videosList b.videos))
          (s.videos.filter (fun w =>
            !((toDeleteIds s sid (videosList b.videos)).contains w.id)))
        ++ createRows sid s.nextVideoId (toCreateList (videosList b.videos))
      ∧ (updateSong s u sid b).1.nextVideoId
          = s.nextVideoId + (toCreateList (videosList b.videos)).length
      ∧ (updateSong s u sid b).1.songs = s.songs
      ∧ (updateSong s u sid b).1.nextSongId = s.nextSongId := by
  unfold updateSong
  rw [hv, hfind]
  cases htab : s.tabs.find? (fun t => t.song_id == sid) <;> simp [htab]

theorem videosOf_update_target (s : State) (u sid : Nat) (b : Body)
    (song : Song) (hv : validateBody b = none)
    (hfind : s.songs.find? (fun g => g.id == sid && g.user_id == u)
      = some song) :
    videosOf (updateSong s u sid b).1 sid =
      (toUpdateList s sid (videosList b.videos)).map
        (updateFromIncoming (videosList b.videos))
      ++ createRows sid s.nextVideoId (toCreateList (videosList b.videos)) := by
  have hc := (updateSong_components s u sid b song hv hfind).1
  unfold videosOf
  rw [hc, forSong_append, applySaves_eq_map,
    forSong_map _ _ (rewriteEntry_song_id _ _), forSong_filter,
    forSong_not_deleted, forSong_createRows_self]
  congr 1
  refine List.map_congr_left (fun v hv' => ?_)
  unfold rewriteEntry
  have : ((toUpdateList s sid (videosList b.videos)).any
      fun x => x.id == v.id) = true :=
    List.any_eq_true.mpr ⟨v, hv', by simp⟩
  rw [this]
  rfl

theorem videosOf_update_other {s : State} (u : Nat) {sid : Nat} (b : Body)
    (song : Song) (hnd : (s.videos.map Video.id).Nodup)
    (hv : validateBody b = none)
    (hfind : s.songs.find? (fun g => g.id == sid && g.user_id == u)
      = some song)
    {sid' : Nat} (hne : sid' ≠ sid) :
    videosOf (updateSong s u sid b).1 sid' = videosOf s sid' := by
  have hc := (updateSong_components s u sid b song hv hfind).1
  unfold videosOf
  rw [hc, forSong_append, applySaves_eq_map,
    forSong_map _ _ (rewriteEntry_song_id _ _), forSong_filter,
    forSong_createRows_other hne, List.append_nil]
  have hself : (forSong s.videos sid').filter
      (fun w => !((toDeleteIds s sid (videosList b.videos)).contains w.id))
      = forSong s.videos sid' := by
    refine List.filter_eq_self.mpr (fun w hw => ?_)
    have hwmem : w ∈ s.videos := (List.mem_filter.mp hw).1
    have hwsid : w.song_id = sid' := by
      have := (List.mem_filter.mp hw).2
      simpa using this
    have hnot : w.id ∉ (forSong s.videos sid).map Video.id :=
      not_mem_target_ids hnd hwmem (by rw [hwsid]; exact hne)
    have : w.id ∉ toDeleteIds s sid (videosList b.videos) := by
      intro hmem
      exact hnot (List.mem_of_mem_filter hmem)
    rw [contains_false_iff.mpr this]
    rfl
  rw [hself]
  refine Eq.trans (List.map_congr_left (fun w hw => ?_)) (List.map_id' _)
  have hwmem : w ∈ s.videos := (List.mem_filter.mp hw).1
  have hwsid : w.song_id = sid' := by
    have := (List.mem_filter.mp hw).2
    simpa using this
  unfold rewriteEntry
  have hany : ((toUpdateList s sid (videosList b.videos)).any
      fun x => x.id == w.id) = false := by
    rw [← Bool.not_eq_true, List.any_eq_true]
    rintro ⟨v, hv', hvid⟩
    have hvtarget : v ∈ forSong s.videos sid := List.mem_of_mem_filter hv'
    have hnot : w.id ∉ (forSong s.videos sid).map Video.id :=
      not_mem_target_ids hnd hwmem (by rw [hwsid]; exact hne)
    exact hnot (List.mem_map.mpr ⟨v, hvtarget, by simpa using hvid⟩)
  rw [hany]
  rfl

/-! ## Helper lemmas: validation -/

theorem validate_fields {b : Body} (hv : validateBody b = none) :
    b.title ≠ "" ∧ b.artist ≠ "" ∧ b.tab_text ≠ "" := by
  unfold validateBody at hv
  by_cases hcond : b.title = "" ∨ b.artist = "" ∨ b.tab_text = ""
  · simp [hcond] at hv
  · push_neg at hcond
    exact hcond

theorem validate_videos {b : Body} {l : List VideoEntry}
    (hv : validateBody b = none) (hl : b.videos = .arr l) :
    l.length ≤ 5 ∧ ∀ e ∈ l, e.url ≠ "" ∧ e.video_type ≠ "" := by
  obtain ⟨ht, ha, hx⟩ := validate_fields hv
  unfold validateBody at hv
  rw [hl, if_neg (by simp [ht, ha, hx])] at hv
  by_cases h5 : l.length > 5
  · exfalso
    revert hv
    simp [h5]
  · refine ⟨by omega, fun e he => ?_⟩
    by_cases hany : l.any (fun v => v.url == "" || v.video_type == "") = true
    · exfalso
      revert hv
      simp [h5, hany]
    · have hne : (e.url == "" || e.video_type == "") ≠ true := by
        intro hb
        exact hany (List.any_eq_true.mpr ⟨e, he, hb⟩)
      constructor <;> intro hu <;> exact hne (by simp [hu])

theorem videosList_le5 {b : Body} (hv : validateBody b = none) :
    (videosList b.videos).length ≤ 5 := by
  cases hb : b.videos with
  | absent => simp [videosList]
  | nonArray =>
    exfalso
    rcases validate_fields hv with ⟨ht, ha, hx⟩
    unfold validateBody at hv
    rw [hb, if_neg (by simp [ht, ha, hx])] at hv
    exact Option.noConfusion hv
  | arr l => simpa [videosList] using (validate_videos hv hb).1

theorem videosList_entries {b : Body} (hv : validateBody b = none) :
    ∀ e ∈ videosList b.videos, e.url ≠ "" ∧ e.video_type ≠ "" := by
  cases hb : b.videos with
  | absent => simp [videosList]
  | nonArray => simp [videosList]
  | arr l => simpa [videosList] using (validate_videos hv hb).2

theorem validate_six {b : Body} {l : List VideoEntry}
    (ht : b.title ≠ "") (ha : b.artist ≠ "") (hx : b.tab_text ≠ "")
    (hl : b.videos = .arr l) (h6 : 5 < l.length) :
    validateBody b = some "Maximum of 5 videos allowed" := by
  simp [validateBody, hl, ht, ha, hx, h6]

theorem validate_msg_mem {b : Body} {msg : String}
    (hv : validateBody b = some msg) : msg ∈ validationMessages := by
  unfold validateBody at hv
  split at hv
  · simp [validationMessages, ← Option.some_inj.mp hv]
  · split at hv
    · exact Option.noConfusion hv
    · simp [validationMessages, ← Option.some_inj.mp hv]
    · split at hv
      · simp [validationMessages, ← Option.some_inj.mp hv]
      · split at hv
        · simp [validationMessages, ← Option.some_inj.mp hv]
        · exact Option.noConfusion hv

/-! ## Helper lemmas: counting the reconciled rows -/

theorem newIdsOf_length (l : List VideoEntry) :
    (newIdsOf l).length = l.countP (fun e => idTruthy e.id) := by
  unfold newIdsOf
  rw [List.filterMap_map]
  induction l with
  | nil => rfl
  | cons e rest ih =>
    rw [List.filterMap_cons, List.countP_cons]
    cases htr : idTruthy e.id with
    | false => simp [Function.comp, htr, ih]
    | true =>
      cases he : e.id with
      | none => rw [he] at htr; simp [idTruthy] at htr
      | some n =>
        rw [he] at htr
        simp [Function.comp, he, htr, ih]

theorem toCreateList_length (l : List VideoEntry) :
    (toCreateList l).length = l.countP (fun e => !(idTruthy e.id)) :=
  (List.countP_eq_length_filter _ _).symm

theorem countP_truthy_split (l : List VideoEntry) :
    l.countP (fun e => idTruthy e.id)
      + l.countP (fun e => !(idTruthy e.id)) = l.length := by
  induction l with
  | nil => rfl
  | cons e rest ih =>
    simp only [List.countP_cons, List.length_cons]
    cases htr : idTruthy e.id <;> simp [htr] <;> omega

theorem toUpdateList_sublist (s : State) (sid : Nat) (l : List VideoEntry) :
    (toUpdateList s sid l).Sublist s.videos :=
  (List.filter_sublist _).trans (List.filter_sublist _)

theorem toUpdateList_length_le {s : State} (sid : Nat) (l : List VideoEntry)
    (hnd : (s.videos.map Video.id).Nodup) :
    (toUpdateList s sid l).length ≤ (newIdsOf l).length := by
  have h1 : ((toUpdateList s sid l).map Video.id).Nodup :=
    ((toUpdateList_sublist s sid l).map Video.id).nodup hnd
  have h2 : (toUpdateList s sid l).map Video.id ⊆ newIdsOf l := by
    intro a ha
    obtain ⟨v, hv, rfl⟩ := List.mem_map.mp ha
    have := (List.mem_filter.mp hv).2
    exact contains_iff.mp this
  calc (toUpdateList s sid l).length
      = ((toUpdateList s sid l).map Video.id).length :=
        (List.length_map _ _).symm
    _ ≤ (newIdsOf l).length := (h1.subperm h2).length_le

theorem target_count_le {s : State} (sid : Nat) (l : List VideoEntry)
    (hnd : (s.videos.map Video.id).Nodup) (hlen : l.length ≤ 5) :
    (toUpdateList s sid l).length + (toCreateList l).length ≤ 5 := by
  have h1 := toUpdateList_length_le sid l hnd
  have h2 := newIdsOf_length l
  have h3 := toCreateList_length l
  have h4 := countP_truthy_split l
  omega

/-! ## Helper lemmas: the create handler -/

theorem createSong_success (s : State) (u : Nat) (b : Body)
    (hv : validateBody b = none) :
    createSong s u b =
      ({ s with
          songs := s.songs ++ [⟨s.nextSongId, b.title, b.artist, u⟩]
          tabs := s.tabs ++ [⟨s.nextTabId, b.tab_text, s.nextSongId⟩]
          videos := s.videos
            ++ createRows s.nextSongId s.nextVideoId (videosList b.videos)
          nextSongId := s.nextSongId + 1
          nextTabId := s.nextTabId + 1
          nextVideoId := s.nextVideoId + (videosList b.videos).length },
       .created ⟨⟨s.nextSongId, b.title, b.artist⟩, ⟨none, none⟩,
                 List.replicate (videosList b.videos).length
                   ⟨none, none, none⟩⟩) := by
  unfold createSong
  rw [hv]

/-! ## Helper lemmas: preservation of well-formedness and the video cap -/

theorem found_song_id {s : State} {u sid : Nat} {song : Song}
    (hfind : s.songs.find? (fun g => g.id == sid && g.user_id == u)
      = some song) : song.id = sid ∧ song ∈ s.songs := by
  have hpred := List.find?_some hfind
  refine ⟨?_, List.mem_of_find?_eq_some hfind⟩
  have := (Bool.and_eq_true _ _).mp hpred
  simpa using this.1

theorem wf_update (s : State) (u sid : Nat) (b : Body) (hwf : WF s) :
    WF (updateSong s u sid b).1 := by
  obtain ⟨hnd, hfresh, hpos, hvsong, hsfresh, h1le⟩ := hwf
  cases hv : validateBody b with
  | some msg =>
    unfold updateSong
    rw [hv]
    exact ⟨hnd, hfresh, hpos, hvsong, hsfresh, h1le⟩
  | none =>
    cases hfind : s.songs.find? (fun g => g.id == sid && g.user_id == u) with
    | none =>
      unfold updateSong
      rw [hv, hfind]
      exact ⟨hnd, hfresh, hpos, hvsong, hsfresh, h1le⟩
    | some song =>
      obtain ⟨hV, hN, hS, hSN⟩ := updateSong_components s u sid b song hv hfind
      obtain ⟨hsid, hsongmem⟩ := found_song_id hfind
      have hsidlt : sid < s.nextSongId := hsid ▸ hsfresh song hsongmem
      rw [applySaves_eq_map] at hV
      have hstore1 : (s.videos.filter (fun w =>
          !((toDeleteIds s sid (videosList b.videos)).contains w.id))).Sublist
            s.videos := List.filter_sublist _
      have hids : ((s.videos.filter (fun w =>
            !((toDeleteIds s sid (videosList b.videos)).contains w.id))).map
              (rewriteEntry (videosList b.videos)
                (toUpdateList s sid (videosList b.videos)))).map Video.id
          = (s.videos.filter (fun w =>
            !((toDeleteIds s sid (videosList b.videos)).contains w.id))).map
              Video.id := by
        rw [List.map_map]
        exact List.map_congr_left (fun w _ => rewriteEntry_id _ _ w)
      refine ⟨?_, ?_, ?_, ?_, ?_, ?_⟩
      · rw [hV, List.map_append, hids]
        refine List.Nodup.append ((hstore1.map Video.id).nodup hnd)
          (createRows_ids_nodup _ _ _) ?_
        rw [List.disjoint_left]
        intro a ha hb
        obtain ⟨w, hw, rfl⟩ := List.mem_map.mp ha
        have h1 : w.id < s.nextVideoId := hfresh w (hstore1.subset hw)
        obtain ⟨w', hw', hid'⟩ := List.mem_map.mp hb
        have h2 := (mem_createRows hw').2.1
        omega
      · intro v hv'
        rw [hV] at hv'
        rw [hN]
        rcases List.mem_append.mp hv' with h | h
        · obtain ⟨w, hw, rfl⟩ := List.mem_map.mp h
          rw [rewriteEntry_id]
          have := hfresh w (hstore1.subset hw)
          omega
        · exact (mem_createRows h).2.2.1
      · intro v hv'
        rw [hV] at hv'
        rcases List.mem_append.mp hv' with h | h
        · obtain ⟨w, hw, rfl⟩ := List.mem_map.mp h
          rw [rewriteEntry_id]
          exact hpos w (hstore1.subset hw)
        · have := (mem_createRows h).2.1
          omega
      · intro v hv'
        rw [hV] at hv'
        rw [hSN]
        rcases List.mem_append.mp hv' with h | h
        · obtain ⟨w, hw, rfl⟩ := List.mem_map.mp h
          rw [rewriteEntry_song_id]
          exact hvsong w (hstore1.subset hw)
        · rw [(mem_createRows h).1]
          exact hsidlt
      · intro g hg
        rw [hS] at hg
        rw [hSN]
        exact hsfresh g hg
      · rw [hN]
        omega

theorem wf_create (s : State) (u : Nat) (b : Body) (hwf : WF s) :
    WF (createSong s u b).1 := by
  obtain ⟨hnd, hfresh, hpos, hvsong, hsfresh, h1le⟩ := hwf
  cases hv : validateBody b with
  | some msg =>
    unfold createSong
    rw [hv]
    exact ⟨hnd, hfresh, hpos, hvsong, hsfresh, h1le⟩
  | none =>
    rw [createSong_success s u b hv]
    refine ⟨?_, ?_, ?_, ?_, ?_, ?_⟩
    · show ((s.videos ++ createRows s.nextSongId s.nextVideoId
        (videosList b.videos)).map Video.id).Nodup
      rw [List.map_append]
      refine List.Nodup.append hnd (createRows_ids_nodup _ _ _) ?_
      rw [List.disjoint_left]
      intro a ha hb
      obtain ⟨w, hw, rfl⟩ := List.mem_map.mp ha
      have h1 : w.id < s.nextVideoId := hfresh w hw
      obtain ⟨w', hw', hid'⟩ := List.mem_map.mp hb
      have h2 := (mem_createRows hw').2.1
      omega
    · intro v hv'
      rcases List.mem_append.mp hv' with h | h
      · have := hfresh v h
        show v.id < s.nextVideoId + (videosList b.videos).length
        omega
      · have := (mem_createRows h).2.2.1
        show v.id < s.nextVideoId + (videosList b.videos).length
        omega
    · intro v hv'
      rcases List.mem_append.mp hv' with h | h
      · exact hpos v h
      · have := (mem_createRows h).2.1
        omega
    · intro v hv'
      rcases List.mem_append.mp hv' with h | h
      · have := hvsong v h
        show v.song_id < s.nextSongId + 1
        omega
      · rw [(mem_createRows h).1]
        show s.nextSongId < s.nextSongId + 1
        omega
    · intro g hg
      rcases List.mem_append.mp hg with h | h
      · have := hsfresh g h
        show g.id < s.nextSongId + 1
        omega
      · rw [List.mem_singleton.mp h]
        show s.nextSongId < s.nextSongId + 1
        omega
    · show 1 ≤ s.nextVideoId + (videosList b.videos).length
      omega

theorem cap_update (s : State) (u sid : Nat) (b : Body) (hwf : WF s)
    (hcap : capInv s) : capInv (updateSong s u sid b).1 := by
  obtain ⟨hnd, _, _, _, _, _⟩ := hwf
  cases hv : validateBody b with
  | some msg =>
    unfold updateSong
    rw [hv]
    exact hcap
  | none =>
    cases hfind : s.songs.find? (fun g => g.id == sid && g.user_id == u) with
    | none =>
      unfold updateSong
      rw [hv, hfind]
      exact hcap
    | some song =>
      intro g hg
      have hgs : g ∈ s.songs := by
        rw [(updateSong_components s u sid b song hv hfind).2.2.1] at hg
        exact hg
      by_cases hgid : g.id = sid
      · rw [hgid, videosOf_update_target s u sid b song hv hfind,
          List.length_append, List.length_map, createRows_length]
        exact target_count_le sid _ hnd (videosList_le5 hv)
      · rw [videosOf_update_other u b song hnd hv hfind hgid]
        exact hcap g hgs

theorem cap_create (s : State) (u : Nat) (b : Body) (hwf : WF s)
    (hcap : capInv s) : capInv (createSong s u b).1 := by
  obtain ⟨_, _, _, hvsong, hsfresh, _⟩ := hwf
  cases hv : validateBody b with
  | some msg =>
    unfold createSong
    rw [hv]
    exact hcap
  | none =>
    rw [createSong_success s u b hv]
    intro g hg
    rcases List.mem_append.mp hg with hold | hnew
    · have hne : g.id ≠ s.nextSongId := by
        have := hsfresh g hold
        omega
      show (forSong (s.videos ++ createRows s.nextSongId s.nextVideoId
        (videosList b.videos)) g.id).length ≤ 5
      rw [forSong_append, forSong_createRows_other hne, List.append_nil]
      exact hcap g hold
    · rw [List.mem_singleton.mp hnew]
      show (forSong (s.videos ++ createRows s.nextSongId s.nextVideoId
        (videosList b.videos)) s.nextSongId).length ≤ 5
      rw [forSong_append]
      have hempty : forSong s.videos s.nextSongId = [] := by
        refine List.filter_eq_nil_iff.mpr (fun v hv' => ?_)
        have := hvsong v hv'
        simp only [beq_iff_eq]
        omega
      rw [hempty, List.nil_append, forSong_createRows_self, createRows_length]
      exact videosList_le5 hv

/-! ## Helper lemmas: resubmitting the persisted rows -/

/-- The incoming entries a client would build from the persisted rows of a
song: each row resubmitted with its id. -/
def resubmitEntries (vs : List Video) : List VideoEntry :=
  vs.map (fun v => ⟨some v.id, v.url, v.video_type⟩)

theorem find?_of_mem_newIds {l : List VideoEntry} {a : Nat}
    (ha : a ∈ newIdsOf l) :
    ∃ e, l.find? (fun e => e.id == some a) = some e := by
  unfold newIdsOf at ha
  obtain ⟨o, ho, hoa⟩ := List.mem_filterMap.mp ha
  obtain ⟨e, he, rfl⟩ := List.mem_map.mp ho
  have heid : e.id = some a := by
    by_cases htr : idTruthy e.id = true
    · rw [if_pos htr] at hoa
      exact hoa
    · rw [if_neg htr] at hoa
      exact absurd hoa (by simp)
  have hsome : (l.find? (fun x => x.id == some a)).isSome :=
    List.find?_isSome.mpr ⟨e, he, by simp [heid]⟩
  obtain ⟨e', he'⟩ := Option.isSome_iff_exists.mp hsome
  exact ⟨e', he'⟩

theorem videosOf_update_target_mem (s : State) (u sid : Nat) (b : Body)
    (song : Song) (hv : validateBody b = none)
    (hfind : s.songs.find? (fun g => g.id == sid && g.user_id == u)
      = some song) :
    ∀ w ∈ videosOf (updateSong s u sid b).1 sid,
      ∃ e ∈ videosList b.videos,
        w.url = e.url ∧ w.video_type = e.video_type := by
  intro w hw
  rw [videosOf_update_target s u sid b song hv hfind] at hw
  rcases List.mem_append.mp hw with h | h
  · obtain ⟨v, hv', rfl⟩ := List.mem_map.mp h
    have hvin : (newIdsOf (videosList b.videos)).contains v.id = true :=
      (List.mem_filter.mp hv').2
    obtain ⟨e, he⟩ := find?_of_mem_newIds (contains_iff.mp hvin)
    exact ⟨e, List.mem_of_find?_eq_some he,
      by simp [updateFromIncoming, he], by simp [updateFromIncoming, he]⟩
  · obtain ⟨_, _, _, e, he, h1, h2⟩ := mem_createRows h
    exact ⟨e, List.mem_of_mem_filter he, h1, h2⟩

theorem newIdsOf_resubmit {vs : List Video} (hpos : ∀ v ∈ vs, v.id ≠ 0) :
    newIdsOf (resubmitEntries vs) = vs.map Video.id := by
  unfold newIdsOf resubmitEntries
  rw [List.map_map, List.filterMap_map]
  induction vs with
  | nil => rfl
  | cons v rest ih =>
    rw [List.filterMap_cons]
    have htr : idTruthy ((VideoEntry.id ∘ fun v =>
        (⟨some v.id, v.url, v.video_type⟩ : VideoEntry)) v) = true := by
      simp [Function.comp, idTruthy, hpos v (by simp)]
    rw [List.map_cons]
    simp only [Function.comp] at htr ⊢
    rw [if_pos htr]
    exact congrArg (List.cons v.id) (ih (fun x hx => hpos x (by simp [hx])))

theorem update_resubmit_core (s : State) (u sid : Nat)
    (tt aa xx : String) (song : Song) (hwf : WF s)
    (ht : tt ≠ "") (ha : aa ≠ "") (hx : xx ≠ "")
    (hfind : s.songs.find? (fun g => g.id == sid && g.user_id == u)
      = some song)
    (h5 : (videosOf s sid).length ≤ 5)
    (hurl : ∀ v ∈ videosOf s sid, v.url ≠ "" ∧ v.video_type ≠ "") :
    (updateSong s u sid
        ⟨tt, aa, xx, .arr (resubmitEntries (videosOf s sid))⟩).1.videos
      = s.videos
    ∧ (updateSong s u sid
        ⟨tt, aa, xx, .arr (resubmitEntries (videosOf s sid))⟩).1.nextVideoId
      = s.nextVideoId := by
  obtain ⟨hnd, hfresh, hpos, _, _, _⟩ := hwf
  have hposcur : ∀ v ∈ videosOf s sid, v.id ≠ 0 :=
    fun v hv => hpos v (List.mem_of_mem_filter hv)
  have hv2 : validateBody
      ⟨tt, aa, xx, .arr (resubmitEntries (videosOf s sid))⟩ = none := by
    unfold validateBody
    rw [if_neg (by simp [ht, ha, hx])]
    have hlen : ¬ ((resubmitEntries (videosOf s sid)).length > 5) := by
      unfold resubmitEntries
      rw [List.length_map]
      omega
    have hany : (resubmitEntries (videosOf s sid)).any
        (fun v => v.url == "" || v.video_type == "") = false := by
      rw [← Bool.not_eq_true, List.any_eq_true]
      rintro ⟨e, he, hb⟩
      obtain ⟨v, hvmem, rfl⟩ := List.mem_map.mp he
      have h := hurl v hvmem
      revert hb
      simp [h.1, h.2]
    simp [hlen, hany]
  obtain ⟨hV, hN, _, _⟩ := updateSong_components s u sid
    ⟨tt, aa, xx, .arr (resubmitEntries (videosOf s sid))⟩ song hv2 hfind
  have hnew : newIdsOf (resubmitEntries (videosOf s sid))
      = (videosOf s sid).map Video.id := newIdsOf_resubmit hposcur
  have hdel : toDeleteIds s sid (resubmitEntries (videosOf s sid)) = [] := by
    unfold toDeleteIds
    rw [hnew]
    refine List.filter_eq_nil_iff.mpr (fun a ha' => ?_)
    have hc : ((videosOf s sid).map Video.id).contains a = true :=
      contains_iff.mpr ha'
    show ¬(!(((videosOf s sid).map Video.id).contains a)) = true
    rw [hc]
    simp
  have hstore1 : s.videos.filter (fun w =>
      !((toDeleteIds s sid (resubmitEntries (videosOf s sid))).contains w.id))
      = s.videos := by
    rw [hdel]
    exact List.filter_eq_self.mpr (fun w _ => rfl)
  have htu : toUpdateList s sid (resubmitEntries (videosOf s sid))
      = videosOf s sid := by
    unfold toUpdateList
    rw [hnew]
    exact List.filter_eq_self.mpr (fun v hv' =>
      contains_iff.mpr (List.mem_map.mpr ⟨v, hv', rfl⟩))
  have hcreate : toCreateList (resubmitEntries (videosOf s sid)) = [] := by
    unfold toCreateList
    refine List.filter_eq_nil_iff.mpr (fun e he => ?_)
    obtain ⟨v, hvmem, rfl⟩ := List.mem_map.mp he
    simp [idTruthy, hposcur v hvmem]
  have hlv : videosList (VideosField.arr (resubmitEntries (videosOf s sid)))
      = resubmitEntries (videosOf s sid) := rfl
  rw [hlv] at hV hN
  constructor
  · rw [hV, hcreate, htu, hstore1, applySaves_eq_map]
    show s.videos.map _ ++ createRows sid s.nextVideoId [] = s.videos
    rw [show createRows sid s.nextVideoId [] = [] from rfl, List.append_nil]
    refine Eq.trans (List.map_congr_left fun w hw => ?_) (List.map_id' _)
    unfold rewriteEntry
    by_cases hany2 : ((videosOf s sid).any (fun v => v.id == w.id)) = true
    case neg =>
      rw [if_neg hany2]
    case pos =>
      rw [if_pos hany2]
      obtain ⟨v, hvmem, hvid⟩ := List.any_eq_true.mp hany2
      have hveq : v = w := List.inj_on_of_nodup_map hnd
        (List.mem_of_mem_filter hvmem) hw (by simpa using hvid)
      have hwc : w ∈ videosOf s sid := hveq ▸ hvmem
      unfold updateFromIncoming resubmitEntries
      rw [List.find?_map]
      cases hfnd : (videosOf s sid).find? ((fun e => e.id == some w.id)
          ∘ (fun v => (⟨some v.id, v.url, v.video_type⟩ : VideoEntry))) with
      | none =>
        exfalso
        rw [List.find?_eq_none] at hfnd
        exact hfnd w hwc (by simp [Function.comp])
      | some v' =>
        have hps := List.find?_some hfnd
        have hv'mem : v' ∈ videosOf s sid := List.mem_of_find?_eq_some hfnd
        have hv'w : v' = w := List.inj_on_of_nodup_map hnd
          (List.mem_of_mem_filter hv'mem) hw (by simpa [Function.comp] using hps)
        rw [hv'w]
        rfl
  · rw [hN, hcreate]
    rfl

/-! ## Concrete fixtures for witnesses and counterexamples -/

/-- The empty store with all counters at 1. -/
def s0 : State := ⟨[], [], [], [], 1, 1, 1⟩

/-- A store holding one song (id 1, owner 7) with its tab and one video. -/
def sA : State :=
  ⟨[], [⟨1, "Wonderwall", "Oasis", 7⟩], [⟨1, "Am G", 1⟩],
   [⟨1, "https://u", "youtube", 1⟩], 2, 2, 2⟩

/-- A store holding one user with external subject id "g-1". -/
def sU : State := ⟨[⟨42, "g-1"⟩], [], [], [], 1, 1, 1⟩

/-- A valid create body with one video. -/
def bC : Body := ⟨"Wonderwall", "Oasis", "Am G", .arr [⟨none, "https://u", "youtube"⟩]⟩

/-- A valid update videos list: one entry updating video 1, one new entry. -/
def bUl : List VideoEntry :=
  [⟨some 1, "https://u2", "yt"⟩, ⟨none, "https://u3", "vimeo"⟩]

/-- A valid update body carrying `bUl`. -/
def bU : Body := ⟨"W2", "O2", "X", .arr bUl⟩

/-- `bU` resubmitted with the ids the first call's response returned: the
response video echoes carry no ids, so every entry is id-less. -/
def bU2 : Body :=
  ⟨"W2", "O2", "X", .arr [⟨none, "https://u2", "yt"⟩, ⟨none, "https://u3", "vimeo"⟩]⟩

/-- Six well-formed entries, each carrying an id that matches no stored
video. -/
def l6 : List VideoEntry :=
  [⟨some 100, "u", "t"⟩, ⟨some 101, "u", "t"⟩, ⟨some 102, "u", "t"⟩,
   ⟨some 103, "u", "t"⟩, ⟨some 104, "u", "t"⟩, ⟨some 105, "u", "t"⟩]

/-- An update body with the six entries of `l6` and valid fields. -/
def b6 : Body := ⟨"t", "a", "x", .arr l6⟩

/-- A create/update body missing its title. -/
def bBad : Body := ⟨"", "Oasis", "Am G", .absent⟩

/-! ## Claim theorems -/

/-- Claim C1: for every update of an owned song with a valid request body,
the persisted video set of the song after reconciliation is exactly: the
pre-existing videos whose ids occur among the incoming entries' ids, each
with url and video_type rewritten from the matching incoming entry, plus one
freshly created row (referencing the song) per incoming entry without an id;
every other pre-existing video of the song is deleted. -/
theorem c1_update_reconciliation (s : State) (u sid : Nat) (b : Body)
    (l : List VideoEntry) (song : Song)
    (hv : validateBody b = none) (hl : b.videos = .arr l)
    (hfind : s.songs.find? (fun g => g.id == sid && g.user_id == u)
      = some song) :
    videosOf (updateSong s u sid b).1 sid =
      (toUpdateList s sid l).map (updateFromIncoming l)
        ++ createRows sid s.nextVideoId (toCreateList l) := by
  have h := videosOf_update_target s u sid b song hv hfind
  rw [hl] at h
  simpa [videosList] using h

theorem c1_witness :
    videosOf (updateSong sA 7 1 bU).1 1 =
      (toUpdateList sA 1 bUl).map (updateFromIncoming bUl)
        ++ createRows 1 sA.nextVideoId (toCreateList bUl) :=
  c1_update_reconciliation sA 7 1 bU bUl ⟨1, "Wonderwall", "Oasis", 7⟩
    (by decide) rfl (by decide)

/-- Claim C2 as stated is false: the first call's 200 response echoes every
video with `id` absent (the source maps over Promise objects), so "the ids
returned by the first call" are all absent; resubmitting the same videos
list with those returned ids attached deletes the stored rows and creates
fresh ones, yielding a different persisted set. -/
theorem c2_resubmit_counterexample :
    (∃ r, (updateSong sA 7 1 bU).2 = .ok r ∧ ∀ e ∈ r.videos, e.id = none)
    ∧ videosOf (updateSong (updateSong sA 7 1 bU).1 7 1 bU2).1 1
        ≠ videosOf (updateSong sA 7 1 bU).1 1 := by
  refine ⟨⟨⟨⟨1, "W2", "O2"⟩, ⟨none, none⟩,
    [⟨none, none, none⟩, ⟨none, none, none⟩]⟩, by decide, by decide⟩, by decide⟩

/-- Claim C2 (amended): reconciliation is idempotent when the resubmitted
list carries the ids the first call actually persisted (as stored, e.g. as
returned by GET /api/videos/:songId): updating again with the persisted rows
leaves the video table — and the video id counter, hence no duplicate
creates — untouched. -/
theorem c2_resubmit_idempotent (s : State) (u sid : Nat) (b : Body)
    (l : List VideoEntry) (song : Song) (hwf : WF s)
    (hv : validateBody b = none) (hl : b.videos = .arr l)
    (hfind : s.songs.find? (fun g => g.id == sid && g.user_id == u)
      = some song) :
    (updateSong (updateSong s u sid b).1 u sid
        ⟨b.title, b.artist, b.tab_text,
          .arr (resubmitEntries
            (videosOf (updateSong s u sid b).1 sid))⟩).1.videos
      = (updateSong s u sid b).1.videos
    ∧ (updateSong (updateSong s u sid b).1 u sid
        ⟨b.title, b.artist, b.tab_text,
          .arr (resubmitEntries
            (videosOf (updateSong s u sid b).1 sid))⟩).1.nextVideoId
      = (updateSong s u sid b).1.nextVideoId := by
  have hwf1 := wf_update s u sid b hwf
  have hS := (updateSong_components s u sid b song hv hfind).2.2.1
  have hfind1 : (updateSong s u sid b).1.songs.find?
      (fun g => g.id == sid && g.user_id == u) = some song := by
    rw [hS]
    exact hfind
  obtain ⟨ht, ha, hx⟩ := validate_fields hv
  have h5 : (videosOf (updateSong s u sid b).1 sid).length ≤ 5 := by
    rw [videosOf_update_target s u sid b song hv hfind, List.length_append,
      List.length_map, createRows_length]
    exact target_count_le sid _ hwf.1 (videosList_le5 hv)
  have hurl : ∀ v ∈ videosOf (updateSong s u sid b).1 sid,
      v.url ≠ "" ∧ v.video_type ≠ "" := by
    intro v hvmem
    obtain ⟨e, he, h1, h2⟩ :=
      videosOf_update_target_mem s u sid b song hv hfind v hvmem
    have hwfe := videosList_entries hv e he
    exact ⟨h1 ▸ hwfe.1, h2 ▸ hwfe.2⟩
  exact update_resubmit_core (updateSong s u sid b).1 u sid
    b.title b.artist b.tab_text song hwf1 ht ha hx hfind1 h5 hurl

theorem c2_witness :
    (updateSong (updateSong sA 7 1 bU).1 7 1
        ⟨bU.title, bU.artist, bU.tab_text,
          .arr (resubmitEntries
            (videosOf (updateSong sA 7 1 bU).1 1))⟩).1.videos
      = (updateSong sA 7 1 bU).1.videos
    ∧ (updateSong (updateSong sA 7 1 bU).1 7 1
        ⟨bU.title, bU.artist, bU.tab_text,
          .arr (resubmitEntries
            (videosOf (updateSong sA 7 1 bU).1 1))⟩).1.nextVideoId
      = (updateSong sA 7 1 bU).1.nextVideoId :=
  c2_resubmit_idempotent sA 7 1 bU bUl ⟨1, "Wonderwall", "Oasis", 7⟩
    (by decide) (by decide) rfl (by decide)

/-- Claim C3 is violated by the code: on a successful create, the song part
of the response is echoed from the stored row, but the tab is echoed as
`{id: tabPromise.id, text: tabPromise.text}` and the videos by mapping over
`videoPromises` — property reads on Promise objects — so every tab and video
field of the response is undefined even though storage holds the real rows;
the update response has the same flaw (`[...updatePromises,
...createPromises]`). -/
theorem c3_response_echo_bug :
    (createSong s0 7 bC).2 = .created ⟨⟨1, "Wonderwall", "Oasis"⟩,
      ⟨none, none⟩, [⟨none, none, none⟩]⟩
    ∧ (createSong s0 7 bC).1.tabs = [⟨1, "Am G", 1⟩]
    ∧ (createSong s0 7 bC).1.videos = [⟨1, "https://u", "youtube", 1⟩]
    ∧ (updateSong sA 7 1 bU).2 = .ok ⟨⟨1, "W2", "O2"⟩, ⟨none, none⟩,
        [⟨none, none, none⟩, ⟨none, none, none⟩]⟩
    ∧ (updateSong sA 7 1 bU).1.tabs = [⟨1, "X", 1⟩] := by
  decide

/-- Claim C4: a valid create adds exactly one song row owned by the caller,
exactly one tab row with the submitted text referencing the new song, and
one video row per input entry referencing the new song; the response's
videos list length equals the input list length. -/
theorem c4_create_rows (s : State) (u : Nat) (b : Body) (l : List VideoEntry)
    (hv : validateBody b = none) (hl : b.videos = .arr l) :
    (createSong s u b).1.songs = s.songs ++ [⟨s.nextSongId, b.title, b.artist, u⟩]
    ∧ (createSong s u b).1.tabs
        = s.tabs ++ [⟨s.nextTabId, b.tab_text, s.nextSongId⟩]
    ∧ (createSong s u b).1.videos
        = s.videos ++ createRows s.nextSongId s.nextVideoId l
    ∧ (∀ w ∈ createRows s.nextSongId s.nextVideoId l, w.song_id = s.nextSongId)
    ∧ (createRows s.nextSongId s.nextVideoId l).length = l.length
    ∧ (createSong s u b).2 = .created ⟨⟨s.nextSongId, b.title, b.artist⟩,
        ⟨none, none⟩, List.replicate l.length ⟨none, none, none⟩⟩
    ∧ (List.replicate l.length (⟨none, none, none⟩ : VideoEcho)).length
        = l.length := by
  have hle : videosList b.videos = l := by
    rw [hl]
    rfl
  rw [createSong_success s u b hv, hle]
  exact ⟨rfl, rfl, rfl, fun w hw => (mem_createRows hw).1,
    createRows_length _ _ _, rfl, List.length_replicate _ _⟩

theorem c4_witness :
    (createSong s0 7 bC).1.songs
        = s0.songs ++ [⟨s0.nextSongId, bC.title, bC.artist, 7⟩]
    ∧ (createSong s0 7 bC).1.tabs
        = s0.tabs ++ [⟨s0.nextTabId, bC.tab_text, s0.nextSongId⟩]
    ∧ (createSong s0 7 bC).1.videos
        = s0.videos ++ createRows s0.nextSongId s0.nextVideoId
            [⟨none, "https://u", "youtube"⟩]
    ∧ (∀ w ∈ createRows s0.nextSongId s0.nextVideoId
        [⟨none, "https://u", "youtube"⟩], w.song_id = s0.nextSongId)
    ∧ (createRows s0.nextSongId s0.nextVideoId
        [⟨none, "https://u", "youtube"⟩]).length
        = [(⟨none, "https://u", "youtube"⟩ : VideoEntry)].length
    ∧ (createSong s0 7 bC).2 = .created ⟨⟨s0.nextSongId, bC.title, bC.artist⟩,
        ⟨none, none⟩, List.replicate
          [(⟨none, "https://u", "youtube"⟩ : VideoEntry)].length
          ⟨none, none, none⟩⟩
    ∧ (List.replicate [(⟨none, "https://u", "youtube"⟩ : VideoEntry)].length
        (⟨none, none, none⟩ : VideoEcho)).length
        = [(⟨none, "https://u", "youtube"⟩ : VideoEntry)].length :=
  c4_create_rows s0 7 bC [⟨none, "https://u", "youtube"⟩] (by decide) rfl

/-- Claim C5 as stated is false in its validation clause: the update handler
checks only `videos.length > 5`.  Here the song has no videos and all six
incoming entries carry ids matching nothing, so the final resulting video
count per the spec's reconciliation rule is 0 ≤ 5, yet the handler rejects
with the cap error and mutates nothing. -/
theorem c5_cap_counterexample :
    updateSong sA 7 1 b6 = (sA, .badRequest "Maximum of 5 videos allowed")
    ∧ specResultingVideoCount sA 1 l6 = 0 := by
  decide

/-- Claim C5 (amended): every song has at most 5 videos at all times — both
create and update preserve the invariant — but update validates the cap
against the length of the input list (which always bounds the final
resulting count, because unlisted videos are deleted), rejecting any list
longer than 5 even when the final count would be below the cap. -/
theorem c5_cap_preserved (s : State) (u sid : Nat) (b : Body)
    (hwf : WF s) (hcap : capInv s) :
    capInv (createSong s u b).1 ∧ capInv (updateSong s u sid b).1
    ∧ (∀ l, b.videos = .arr l → 5 < l.length →
        b.title ≠ "" → b.artist ≠ "" → b.tab_text ≠ "" →
        updateSong s u sid b = (s, .badRequest "Maximum of 5 videos allowed")) := by
  refine ⟨cap_create s u b hwf hcap, cap_update s u sid b hwf hcap, ?_⟩
  intro l hl h6 ht ha hx
  unfold updateSong
  rw [validate_six ht ha hx hl h6]

theorem c5_witness :
    capInv (createSong sA 7 b6).1 ∧ capInv (updateSong sA 7 1 b6).1
    ∧ updateSong sA 7 1 b6 = (sA, .badRequest "Maximum of 5 videos allowed") :=
  ⟨(c5_cap_preserved sA 7 1 b6 (by decide) (by decide)).1,
   (c5_cap_preserved sA 7 1 b6 (by decide) (by decide)).2.1,
   (c5_cap_preserved sA 7 1 b6 (by decide) (by decide)).2.2 l6 rfl
     (by decide) (by decide) (by decide) (by decide)⟩

/-- Claim C6: any create or update request failing validation gets the
enumerated 400 message of its first failing check and mutates nothing; in
particular a request with valid fields and six videos always gets
"Maximum of 5 videos allowed" with the store unchanged. -/
theorem c6_validation (s : State) (u sid : Nat) (b : Body) :
    (∀ msg, validateBody b = some msg →
      createSong s u b = (s, .badRequest msg)
      ∧ updateSong s u sid b = (s, .badRequest msg)
      ∧ msg ∈ validationMessages)
    ∧ (∀ l, b.videos = .arr l → l.length = 6 →
        b.title ≠ "" → b.artist ≠ "" → b.tab_text ≠ "" →
        createSong s u b = (s, .badRequest "Maximum of 5 videos allowed")
        ∧ updateSong s u sid b
            = (s, .badRequest "Maximum of 5 videos allowed")) := by
  constructor
  · intro msg hmsg
    refine ⟨?_, ?_, validate_msg_mem hmsg⟩
    · unfold createSong
      rw [hmsg]
    · unfold updateSong
      rw [hmsg]
  · intro l hl h6 ht ha hx
    have hv6 := validate_six ht ha hx hl (by omega)
    constructor
    · unfold createSong
      rw [hv6]
    · unfold updateSong
      rw [hv6]

theorem c6_witness :
    (createSong s0 9 bBad
        = (s0, .badRequest "title, artist, and tab_text are required")
      ∧ updateSong s0 9 1 bBad
        = (s0, .badRequest "title, artist, and tab_text are required")
      ∧ "title, artist, and tab_text are required" ∈ validationMessages)
    ∧ (createSong s0 9 b6 = (s0, .badRequest "Maximum of 5 videos allowed")
      ∧ updateSong s0 9 1 b6
        = (s0, .badRequest "Maximum of 5 videos allowed")) :=
  ⟨(c6_validation s0 9 1 bBad).1 "title, artist, and tab_text are required"
      (by decide),
   (c6_validation s0 9 1 b6).2 l6 rfl (by decide) (by decide) (by decide)
      (by decide)⟩

/-- Claim C7: a session token whose expiry has passed is rejected by the
guard with the 401 Unauthorized body even though its signature is valid
(it was signed with the app's own key), and token validation maps every
verification failure to the `none` sentinel instead of letting the
exception escape. -/
theorem c7_expired_rejected (p : SessionPayload) (e now : Nat)
    (he : p.exp = some e) (hnow : e ≤ now) :
    decodeSessionToken ⟨some (jwtSign privateKey p)⟩ now = none
    ∧ requireAuth ⟨some (jwtSign privateKey p)⟩ now
        = .halt 401 ⟨"error", "Unauthorized"⟩
    ∧ ∀ (t : SessionToken) (n2 : Nat),
        jwtOk (jwtVerify t privateKey n2) = false →
        decodeSessionToken ⟨some t⟩ n2 = none := by
  have hver : jwtVerify (jwtSign privateKey p) privateKey now
      = .error .expired := by
    unfold jwtVerify jwtSign
    rw [if_neg (by simp)]
    simp [he, hnow]
  refine ⟨?_, ?_, ?_⟩
  · simp [decodeSessionToken, hver]
  · simp [requireAuth, decodeSessionToken, hver]
  · intro t n2 hok
    cases hv : jwtVerify t privateKey n2 with
    | ok q =>
      rw [hv] at hok
      simp [jwtOk] at hok
    | error err => simp [decodeSessionToken, hv]

theorem c7_witness :
    decodeSessionToken ⟨some (jwtSign privateKey ⟨5, some 10⟩)⟩ 11 = none
    ∧ requireAuth ⟨some (jwtSign privateKey ⟨5, some 10⟩)⟩ 11
        = .halt 401 ⟨"error", "Unauthorized"⟩
    ∧ decodeSessionToken
        ⟨some ⟨⟨5, none⟩, ("wrong_key", ⟨5, none⟩)⟩⟩ 0 = none :=
  ⟨(c7_expired_rejected ⟨5, some 10⟩ 10 11 rfl (by decide)).1,
   (c7_expired_rejected ⟨5, some 10⟩ 10 11 rfl (by decide)).2.1,
   (c7_expired_rejected ⟨5, some 10⟩ 10 11 rfl (by decide)).2.2
     ⟨⟨5, none⟩, ("wrong_key", ⟨5, none⟩)⟩ 0 (by decide)⟩

/-- Claim C8 is violated by the code: on a login whose verified subject has
no User row yet, the handler's create branch evaluates `uuidv4()` although
`uuidv4` is never imported (and would then call the undefined model
`sequelize.models.user`), so it crashes with no user created and no response
— logging in with a never-before-seen subject cannot return a user_id at
all.  The found branch works: an existing user's id is reused. -/
theorem c8_login_create_crash :
    handleGoogleAuth s0 ⟨"g-1", "Norah", "n@example.com"⟩
      = (s0, .crash "ReferenceError: uuidv4 is not defined")
    ∧ (handleGoogleAuth s0 ⟨"g-1", "Norah", "n@example.com"⟩).1.users = []
    ∧ handleGoogleAuth sU ⟨"g-1", "Norah", "n@example.com"⟩
      = (sU, .respond "Norah" "n@example.com" 42
          (jwtSign privateKey ⟨42, none⟩)) := by
  decide

/-- Claim C9: when the addressed song does not exist or belongs to a
different user, GET returns the 404 Song-not-found body and a valid PUT
returns the 404 Song-not-found body with the store untouched, and the
response is literally the same in both cases (it does not depend on the
state beyond the not-found-or-not-owned condition), so a caller cannot
observe whether another user's song exists. -/
theorem c9_not_found_uniform (s : State) (u sid : Nat)
    (h : ∀ g ∈ s.songs, g.id = sid → g.user_id ≠ u) :
    getSongById s u sid = .notFound
    ∧ (∀ b : Body, validateBody b = none →
        updateSong s u sid b = (s, .songNotFound))
    ∧ (∀ s2 : State, (∀ g ∈ s2.songs, g.id = sid → g.user_id ≠ u) →
        getSongById s2 u sid = getSongById s u sid) := by
  have hfind : ∀ (st : State), (∀ g ∈ st.songs, g.id = sid → g.user_id ≠ u) →
      st.songs.find? (fun g => g.id == sid && g.user_id == u) = none := by
    intro st hst
    rw [List.find?_eq_none]
    intro g hg
    simp only [Bool.and_eq_true, beq_iff_eq]
    rintro ⟨h1, h2⟩
    exact hst g hg h1 h2
  refine ⟨?_, ?_, ?_⟩
  · unfold getSongById
    rw [hfind s h]
  · intro b hv
    unfold updateSong
    rw [hv, hfind s h]
  · intro s2 h2
    unfold getSongById
    rw [hfind s h, hfind s2 h2]

theorem c9_witness :
    getSongById sA 9 1 = .notFound
    ∧ updateSong sA 9 1 bU = (sA, .songNotFound)
    ∧ getSongById s0 9 1 = getSongById sA 9 1 :=
  ⟨(c9_not_found_uniform sA 9 1 (by decide)).1,
   (c9_not_found_uniform sA 9 1 (by decide)).2.1 bU (by decide),
   (c9_not_found_uniform sA 9 1 (by decide)).2.2 s0 (by decide)⟩

/-- Claim C10: updating an owned song with the videos field omitted treats
the target list as empty: every video of that song is deleted, no video is
created (the id counter does not move), and the song ends with zero
videos. -/
theorem c10_omitted_videos (s : State) (u sid : Nat) (b : Body) (song : Song)
    (hwf : WF s) (hv : validateBody b = none) (habs : b.videos = .absent)
    (hfind : s.songs.find? (fun g => g.id == sid && g.user_id == u)
      = some song) :
    (updateSong s u sid b).1.videos
        = s.videos.filter (fun v => !(v.song_id == sid))
    ∧ videosOf (updateSong s u sid b).1 sid = []
    ∧ (updateSong s u sid b).1.nextVideoId = s.nextVideoId := by
  obtain ⟨hnd, _, _, _, _, _⟩ := hwf
  obtain ⟨hV, hN, _, _⟩ := updateSong_components s u sid b song hv hfind
  rw [habs] at hV hN
  have hlv : videosList VideosField.absent = [] := rfl
  rw [hlv] at hV hN
  have htu : toUpdateList s sid [] = [] := by
    unfold toUpdateList
    refine List.filter_eq_nil_iff.mpr (fun v hv' => ?_)
    simp [newIdsOf, List.contains]
  have hdel : toDeleteIds s sid [] = (forSong s.videos sid).map Video.id := by
    unfold toDeleteIds
    exact List.filter_eq_self.mpr (fun a _ => rfl)
  have hmain : (updateSong s u sid b).1.videos
      = s.videos.filter (fun v => !(v.song_id == sid)) := by
    rw [hV, htu, hdel]
    rw [show applySaves [] [] (s.videos.filter (fun w =>
      !(((forSong s.videos sid).map Video.id).contains w.id))) =
      s.videos.filter (fun w =>
        !(((forSong s.videos sid).map Video.id).contains w.id)) from rfl]
    rw [show createRows sid s.nextVideoId (toCreateList []) = [] from rfl,
      List.append_nil]
    refine List.filter_congr (fun w hw => ?_)
    by_cases hsid : w.song_id = sid
    · have hmem : w.id ∈ (forSong s.videos sid).map Video.id :=
        List.mem_map.mpr ⟨w, List.mem_filter.mpr ⟨hw, by simp [hsid]⟩, rfl⟩
      rw [contains_iff.mpr hmem]
      simp [hsid]
    · have hnmem : w.id ∉ (forSong s.videos sid).map Video.id :=
        not_mem_target_ids hnd hw hsid
      rw [contains_false_iff.mpr hnmem]
      simp [hsid]
  refine ⟨hmain, ?_, by rw [hN]; rfl⟩
  unfold videosOf
  rw [hmain, forSong_filter]
  refine List.filter_eq_nil_iff.mpr (fun v hv' => ?_)
  have : v.song_id = sid := by
    have := (List.mem_filter.mp hv').2
    simpa using this
  simp [this]

theorem c10_witness :
    (updateSong sA 7 1 ⟨"W2", "O2", "X", .absent⟩).1.videos
        = sA.videos.filter (fun v => !(v.song_id == 1))
    ∧ videosOf (updateSong sA 7 1 ⟨"W2", "O2", "X", .absent⟩).1 1 = []
    ∧ (updateSong sA 7 1 ⟨"W2", "O2", "X", .absent⟩).1.nextVideoId
        = sA.nextVideoId :=
  c10_omitted_videos sA 7 1 ⟨"W2", "O2", "X", .absent⟩
    ⟨1, "Wonderwall", "Oasis", 7⟩ (by decide) (by decide) rfl (by decide)

end SongApp
